import Mathlib

/-!
# Verification of the js-memory-leak-detector engine

Shallow embedding of the resource-tracking / leak-heuristic engine:
the event-listener tracker, timer tracker, DOM tracker, Redux tracker,
snapshot history, growth rule, recommendation generator and orchestrator,
translated from the TypeScript sources.  JavaScript `Map`s are modelled as
insertion-ordered association lists (`Map.set` replaces in place or appends,
`Map.delete` removes the key, iteration follows insertion order), JS `Set`s
as insertion-ordered lists without the duplicates `Set.add` refuses,
timestamps and byte counts as integers, and the division by 1024*1024 in the
growth rule as exact rational arithmetic (division of a double by 2^20 is
exact, so this is faithful).
-/

namespace MLD

/-! ## JavaScript Map / Set primitives -/

/-- `Map.prototype.get`: first (unique) entry with the given key. -/
def mapGet {α β : Type} [DecidableEq α] : List (α × β) → α → Option β
  | [], _ => none
  | (k, v) :: rest, k0 => if k = k0 then some v else mapGet rest k0

/-- `Map.prototype.set`: replace in place when the key is present, else append. -/
def mapSet {α β : Type} [DecidableEq α] : List (α × β) → α → β → List (α × β)
  | [], k0, v0 => [(k0, v0)]
  | (k, v) :: rest, k0, v0 =>
      if k = k0 then (k0, v0) :: rest else (k, v) :: mapSet rest k0 v0

/-- `Map.prototype.delete`: drop the entry with the given key, if any. -/
def mapDelete {α β : Type} [DecidableEq α] : List (α × β) → α → List (α × β)
  | [], _ => []
  | (k, v) :: rest, k0 => if k = k0 then rest else (k, v) :: mapDelete rest k0

/-- `Set.prototype.add`: append unless already present. -/
def setAdd {α : Type} [DecidableEq α] (s : List α) (x : α) : List α :=
  if x ∈ s then s else s ++ [x]

/-- `[...new Set(l)]`: deduplication keeping the first occurrence of each
element, in insertion order.  `seen` accumulates the elements already kept. -/
def jsSetDedupGo : List String → List String → List String
  | _, [] => []
  | seen, x :: xs =>
      if x ∈ seen then jsSetDedupGo seen xs
      else x :: jsSetDedupGo (x :: seen) xs

/-- `[...new Set(l)]` applied to a list of strings. -/
def jsSetDedup (l : List String) : List String :=
  jsSetDedupGo [] l

/-! ## types.ts -/

/-- `LeakSuspect.severity` in `types.ts`. -/
inductive Severity where
  | low | medium | high | critical
deriving DecidableEq, Repr

/-- `LeakSuspect.type` in `types.ts`. -/
inductive SuspectType where
  | eventListener | timer | domReference | closure | detachedDom
  | reduxSubscription | reduxSelector
deriving DecidableEq, Repr

/-- `LeakSuspect` in `types.ts`. -/
structure LeakSuspect where
  type : SuspectType
  severity : Severity
  description : String
  stackTrace : Option String := none
  element : Option String := none
  count : Option Int := none
deriving DecidableEq, Repr

/-- The `memory` sub-record of `MemorySnapshot` (byte counts). -/
structure MemCounters where
  heapUsed : Int
  heapTotal : Int
  external : Int
  arrayBuffers : Int
deriving DecidableEq, Repr

/-- The `counts` sub-record of `MemorySnapshot`. -/
structure SnapCounts where
  eventListeners : Nat
  timers : Nat
  domNodes : Nat
  detachedNodes : Nat
deriving DecidableEq, Repr

/-- `MemorySnapshot` in `types.ts`. -/
structure MemorySnapshot where
  timestamp : Int
  memory : MemCounters
  counts : SnapCounts
deriving DecidableEq, Repr

instance : Inhabited MemorySnapshot :=
  ⟨⟨0, ⟨0, 0, 0, 0⟩, ⟨0, 0, 0, 0⟩⟩⟩

/-! ## event-listener-tracker.ts

`EventTarget` object identities are modelled as naturals; the
`target.constructor.name` string used in suspect descriptions is supplied by
an environment function `ctorName`.  Event types and listener functions are
also identified by naturals (only identity matters).  The tracker's
`listeners` field is a `Map target (Map evtype (Set listener))`. -/

abbrev Target := Nat
abbrev EvType := Nat
abbrev Listener := Nat

/-- The `listeners` map of `EventListenerTracker`. -/
abbrev ListenerState := List (Target × List (EvType × List Listener))

/-- The patched `EventTarget.prototype.addEventListener` bookkeeping:
create the missing per-target map and per-type set, then `Set.add`. -/
def addListener (st : ListenerState) (t : Target) (ty : EvType) (l : Listener) :
    ListenerState :=
  let targetListeners := (mapGet st t).getD []
  let s := (mapGet targetListeners ty).getD []
  mapSet st t (mapSet targetListeners ty (setAdd s l))

/-- The patched `EventTarget.prototype.removeEventListener` bookkeeping:
delete the listener from the set, dropping the type entry when its set
becomes empty and the target entry when its map becomes empty. -/
def removeListener (st : ListenerState) (t : Target) (ty : EvType) (l : Listener) :
    ListenerState :=
  match mapGet st t with
  | none => st
  | some targetListeners =>
    match mapGet targetListeners ty with
    | none => st
    | some s =>
      let s' := s.erase l
      let tl' := if s' = [] then mapDelete targetListeners ty
                 else mapSet targetListeners ty s'
      if tl' = [] then mapDelete st t else mapSet st t tl'

/-- `getActiveListeners()`: total listener count over all targets and types. -/
def getActiveListeners (st : ListenerState) : Nat :=
  (st.map (fun p => (p.2.map (fun q => q.2.length)).sum)).sum

/-- Total listener count of one target's per-type map (the inner loop of
`detectLeaks`). -/
def targetTotal (tl : List (EvType × List Listener)) : Nat :=
  (tl.map (fun q => q.2.length)).sum

/-- `EventListenerTracker.detectLeaks()`: one suspect per *target* whose
total listener count (summed over all event types) exceeds 50. -/
def listenerDetectLeaks (ctorName : Target → String) (st : ListenerState) :
    List LeakSuspect :=
  st.foldl
    (fun suspects p =>
      let totalListeners := targetTotal p.2
      if totalListeners > 50 then
        suspects ++
          [{ type := .eventListener,
             severity := if totalListeners > 100 then .critical else .high,
             description :=
               s!"{totalListeners} event listeners attached to {ctorName p.1}",
             count := some (totalListeners : Int) }]
      else suspects)
    []

/-- One acquire (`addEventListener`) or release (`removeEventListener`) call. -/
inductive LOp where
  | add (t : Target) (ty : EvType) (l : Listener)
  | remove (t : Target) (ty : EvType) (l : Listener)
deriving DecidableEq, Repr

/-- Apply one listener-tracker operation. -/
def lStep (st : ListenerState) : LOp → ListenerState
  | .add t ty l => addListener st t ty l
  | .remove t ty l => removeListener st t ty l

/-- Run a sequence of operations from a given state. -/
def lRun (st : ListenerState) (ops : List LOp) : ListenerState :=
  ops.foldl lStep st

/-- Whether the triple (target, type, listener) is currently tracked. -/
def trackedB (st : ListenerState) (t : Target) (ty : EvType) (l : Listener) : Bool :=
  match mapGet st t with
  | none => false
  | some tl =>
    match mapGet tl ty with
    | none => false
    | some s => decide (l ∈ s)

/-- Number of *effective* acquires along a run: `add` calls whose triple was
not already tracked (re-adding a tracked listener is a `Set.add` no-op). -/
def effAcquires (st : ListenerState) : List LOp → Nat
  | [] => 0
  | op :: ops =>
    (match op with
     | .add t ty l => if trackedB st t ty l then 0 else 1
     | .remove _ _ _ => 0) + effAcquires (lStep st op) ops

/-- Number of *matched* releases along a run: `remove` calls whose triple was
tracked at the time of the call. -/
def effReleases (st : ListenerState) : List LOp → Nat
  | [] => 0
  | op :: ops =>
    (match op with
     | .add _ _ _ => 0
     | .remove t ty l => if trackedB st t ty l then 1 else 0) +
      effReleases (lStep st op) ops

/-- Number of raw acquire calls in a sequence. -/
def rawAcquires : List LOp → Nat
  | [] => 0
  | .add _ _ _ :: ops => 1 + rawAcquires ops
  | .remove _ _ _ :: ops => rawAcquires ops

/-! ## timer-tracker.ts

Timer handles are naturals issued by the host (`setTimeout`/`setInterval`
return values); the truthiness test `if (id)` in the patched clear functions
is `id ≠ 0`.  `Date.now()` values and the tracker clock are integers
(milliseconds). -/

/-- The `'timeout' | 'interval'` tag of a tracked timer. -/
inductive TimerKind where
  | timeout | interval
deriving DecidableEq, Repr

/-- One entry of the `timers` map. -/
structure TimerInfo where
  type : TimerKind
  created : Int
  stack : Option String := none
deriving DecidableEq, Repr

/-- The `timers` field of `TimerTracker`: `Map id info`. -/
abbrev TimerState := List (Nat × TimerInfo)

/-- Patched `setTimeout` bookkeeping: record the host-issued id. -/
def setTimeoutTrack (st : TimerState) (id : Nat) (now : Int)
    (stack : Option String) : TimerState :=
  mapSet st id { type := .timeout, created := now, stack := stack }

/-- Patched `setInterval` bookkeeping: record the host-issued id. -/
def setIntervalTrack (st : TimerState) (id : Nat) (now : Int)
    (stack : Option String) : TimerState :=
  mapSet st id { type := .interval, created := now, stack := stack }

/-- Patched `clearTimeout` bookkeeping: `if (id) delete`. -/
def clearTimeoutTrack (st : TimerState) (id : Nat) : TimerState :=
  if id ≠ 0 then mapDelete st id else st

/-- Patched `clearInterval` bookkeeping: `if (id) delete`. -/
def clearIntervalTrack (st : TimerState) (id : Nat) : TimerState :=
  if id ≠ 0 then mapDelete st id else st

/-- `getActiveTimers()`: `this.timers.size`. -/
def getActiveTimers (st : TimerState) : Nat :=
  st.length

/-- Count of timers older than 5 minutes (`now - created > 5*60*1000`). -/
def oldTimerCount (now : Int) (st : TimerState) : Nat :=
  (st.filter (fun p => now - p.2.created > 5 * 60 * 1000)).length

/-- Count of tracked repeating timers (`type === 'interval'`). -/
def intervalCount (st : TimerState) : Nat :=
  (st.filter (fun p => p.2.type = TimerKind.interval)).length

/-- `TimerTracker.detectLeaks()`. -/
def timerDetectLeaks (now : Int) (st : TimerState) : List LeakSuspect :=
  let oldTimers := oldTimerCount now st
  let totalIntervals := intervalCount st
  (if oldTimers > 10 then
      [{ type := .timer,
         severity := if oldTimers > 50 then .critical else .high,
         description := s!"{oldTimers} timers running for more than 5 minutes",
         count := some (oldTimers : Int) }]
    else []) ++
  (if totalIntervals > 20 then
      [{ type := .timer,
         severity := if totalIntervals > 100 then .critical else .medium,
         description := s!"{totalIntervals} active intervals detected",
         count := some (totalIntervals : Int) }]
    else [])

/-! ## dom-tracker.ts

DOM node identities are naturals.  `document.querySelectorAll('*').length`
is a host quantity supplied by the environment at detection time. -/

/-- The mutable fields of `DOMTracker`. -/
structure DOMState where
  observerActive : Bool
  detachedNodes : List Nat
  nodeCount : Nat
deriving DecidableEq, Repr

/-- The constructor: the observer is installed only when `MutationObserver`
exists in the host. -/
def newDOMTracker (mutationObserverAvailable : Bool) : DOMState :=
  { observerActive := mutationObserverAvailable, detachedNodes := [], nodeCount := 0 }

/-- `checkForDetachedNode`: an element node with no parent that the document
no longer contains joins the detached set. -/
def checkForDetachedNode (st : DOMState) (node : Nat) (isElement : Bool)
    (documentContains : Bool) (parentIsNull : Bool) : DOMState :=
  if isElement then
    if !documentContains && parentIsNull then
      { st with detachedNodes := setAdd st.detachedNodes node }
    else st
  else st

/-- `getDetachedNodeCount()`. -/
def getDetachedNodeCount (st : DOMState) : Nat :=
  st.detachedNodes.length

/-- `DOMTracker.detectLeaks()`; `domNodeCount` is
`document.querySelectorAll('*').length` read from the host. -/
def domDetectLeaks (domNodeCount : Nat) (st : DOMState) : List LeakSuspect :=
  let detachedCount := getDetachedNodeCount st
  (if domNodeCount > 10000 then
      [{ type := .domReference,
         severity := if domNodeCount > 50000 then .critical else .high,
         description := s!"{domNodeCount} DOM nodes detected (potential DOM bloat)",
         count := some (domNodeCount : Int) }]
    else []) ++
  (if detachedCount > 100 then
      [{ type := .detachedDom,
         severity := if detachedCount > 1000 then .critical else .medium,
         description := s!"{detachedCount} detached DOM nodes found in memory",
         count := some (detachedCount : Int) }]
    else [])

/-- `DOMTracker.cleanup()`: disconnect the observer, clear the detached set
(the running `nodeCount` is not reset by the source). -/
def domCleanup (st : DOMState) : DOMState :=
  { st with observerActive := false, detachedNodes := [] }

/-! ## redux-tracker.ts

A store's `subscribe` slot holds either a host function value or the
tracker's wrapper around one; subscription ids are the rationals produced by
`Date.now() + Math.random()` and are supplied by the environment at each
subscribe call.  The host store's own behaviour is modelled by a call log
and a token counter: invoking the original `subscribe` appends a
`subscribeCall` entry and issues a fresh unsubscribe token, invoking an
original unsubscribe appends an `unsubCall` entry for its token. -/

/-- A value that can sit in a store's `subscribe` slot. -/
inductive SubscribeRef where
  | original (i : Nat)
  | wrapped (inner : SubscribeRef)
deriving DecidableEq, Repr

/-- One observable interaction with the underlying (unpatched) store. -/
inductive StoreCall where
  | subscribeCall (listener : Nat) (token : Nat)
  | unsubCall (token : Nat)
deriving DecidableEq, Repr

/-- An externally supplied Redux-like store object. -/
structure StoreModel where
  id : Nat
  subscribe : SubscribeRef
  nextToken : Nat
  log : List StoreCall
deriving DecidableEq, Repr

/-- Invoke the store's own (pre-patch) `subscribe`: log the call and return
a fresh unsubscribe token. -/
def runOriginalSubscribe (store : StoreModel) (listener : Nat) :
    Nat × StoreModel :=
  (store.nextToken,
   { store with
       nextToken := store.nextToken + 1,
       log := store.log ++ [.subscribeCall listener store.nextToken] })

/-- One entry of the `storeSubscriptions` map. -/
structure SubInfo where
  subscriber : Nat
  created : Int
  stack : Option String := none
deriving DecidableEq, Repr

/-- One entry of the `selectorCalls` map. -/
structure SelStats where
  count : Nat
  lastCalled : Int
deriving DecidableEq, Repr

/-- The mutable fields of `ReduxTracker`. -/
structure ReduxState where
  storeSubscriptions : List (ℚ × SubInfo)
  selectorCalls : List (String × SelStats)
  originalStoreSubscribe : Option SubscribeRef := none
  storeRef : Option Nat := none
deriving DecidableEq, Repr

/-- `ReduxTracker.patchStore(store)`: guarded by the truthiness of
`this.storeRef`; when it fires it stores the current `store.subscribe` as the
original and installs the wrapper. -/
def patchStore (tr : ReduxState) (store : StoreModel) : ReduxState × StoreModel :=
  if tr.storeRef.isSome then (tr, store)
  else
    ({ tr with
         storeRef := some store.id,
         originalStoreSubscribe := some store.subscribe },
     { store with subscribe := .wrapped store.subscribe })

/-- The unsubscribe closure returned by the wrapped `subscribe`: it captures
the generated subscription id and the original store's unsubscribe. -/
structure WrappedUnsub where
  subId : ℚ
  origToken : Nat
deriving DecidableEq, Repr

/-- A call to the wrapped `subscribe`: delegate to the stored original
subscribe, record the subscription under the environment-generated id
(`Date.now() + Math.random()`), and return the wrapping unsubscribe. -/
def patchedSubscribe (tr : ReduxState) (store : StoreModel) (listener : Nat)
    (subId : ℚ) (now : Int) (stack : Option String) :
    WrappedUnsub × ReduxState × StoreModel :=
  let tok := runOriginalSubscribe store listener
  let tr' := { tr with
    storeSubscriptions :=
      mapSet tr.storeSubscriptions subId
        { subscriber := listener, created := now, stack := stack } }
  (⟨subId, tok.1⟩, tr', tok.2)

/-- Invoking the unsubscribe returned by the wrapped `subscribe`: delete the
subscription entry, then delegate to the original unsubscribe. -/
def invokeWrappedUnsub (w : WrappedUnsub) (tr : ReduxState) (store : StoreModel) :
    ReduxState × StoreModel :=
  ({ tr with storeSubscriptions := mapDelete tr.storeSubscriptions w.subId },
   { store with log := store.log ++ [.unsubCall w.origToken] })

/-- `trackSelectorUsage(name)`. -/
def trackSelectorUsage (tr : ReduxState) (name : String) (now : Int) : ReduxState :=
  let current := (mapGet tr.selectorCalls name).getD { count := 0, lastCalled := 0 }
  { tr with
      selectorCalls :=
        mapSet tr.selectorCalls name
          { count := current.count + 1, lastCalled := now } }

/-- `getActiveSubscriptions()`. -/
def getActiveSubscriptions (tr : ReduxState) : Nat :=
  tr.storeSubscriptions.length

/-- Count of subscriptions older than 10 minutes. -/
def oldSubscriptionCount (now : Int) (tr : ReduxState) : Nat :=
  (tr.storeSubscriptions.filter (fun p => now - p.2.created > 10 * 60 * 1000)).length

/-- `ReduxTracker.detectLeaks()`. -/
def reduxDetectLeaks (now : Int) (tr : ReduxState) : List LeakSuspect :=
  let size := tr.storeSubscriptions.length
  (if size > 50 then
      [{ type := .reduxSubscription,
         severity := if size > 200 then .critical else .high,
         description := s!"{size} active Redux store subscriptions detected",
         count := some (size : Int) }]
    else []) ++
  (let oldSubscriptions := oldSubscriptionCount now tr
   if oldSubscriptions > 10 then
      [{ type := .reduxSubscription,
         severity := if oldSubscriptions > 50 then .critical else .medium,
         description :=
           s!"{oldSubscriptions} Redux subscriptions active for more than 10 minutes",
         count := some (oldSubscriptions : Int) }]
    else []) ++
  tr.selectorCalls.foldl
    (fun suspects p =>
      let statsCount := p.2.count
      let selector := p.1
      if statsCount > 1000 ∧ now - p.2.lastCalled < 60000 then
        suspects ++
          [{ type := .reduxSelector,
             severity := if statsCount > 5000 then .critical else .high,
             description :=
               s!"Selector \"{selector}\" called {statsCount} times recently (potential infinite re-render)",
             count := some (statsCount : Int) }]
      else suspects)
    []

/-- `ReduxTracker.cleanup()`: restore the patched store's `subscribe` when a
store was patched, then clear both maps (`storeRef` and
`originalStoreSubscribe` are left as they are by the source). -/
def reduxCleanup (tr : ReduxState) (store : Option StoreModel) :
    ReduxState × Option StoreModel :=
  let store' :=
    match tr.storeRef, tr.originalStoreSubscribe, store with
    | some _, some orig, some s => some { s with subscribe := orig }
    | _, _, s => s
  ({ tr with storeSubscriptions := [], selectorCalls := [] }, store')

/-- The `ReduxTracker` constructor: probe the window for a store exposing a
`subscribe` function and patch the first one found (the DevTools hook wrap,
which only matters for stores created later through that hook, is outside
this model). -/
def newReduxTracker (windowStore : Option StoreModel) :
    ReduxState × Option StoreModel :=
  match windowStore with
  | some s =>
      let p := patchStore { storeSubscriptions := [], selectorCalls := [] } s
      (p.1, some p.2)
  | none => ({ storeSubscriptions := [], selectorCalls := [] }, none)

/-! ## Global entry points and tracker objects

The swappable global function slots (`EventTarget.prototype.addEventListener`
and friends) hold opaque function values: either a host-provided function or
a shim installed by a tracker.  The index distinguishes distinct values. -/

/-- A function value sitting in a global slot. -/
inductive FuncRef where
  | native (i : Nat)
  | tracked (i : Nat)
deriving DecidableEq, Repr

/-- The six intercepted global slots. -/
structure Globals where
  addEventListener : FuncRef
  removeEventListener : FuncRef
  setTimeout : FuncRef
  setInterval : FuncRef
  clearTimeout : FuncRef
  clearInterval : FuncRef
deriving DecidableEq, Repr

/-- The `EventListenerTracker` object: its registry plus the two captured
originals. -/
structure EventListenerTracker where
  listeners : ListenerState
  originalAddEventListener : FuncRef
  originalRemoveEventListener : FuncRef
deriving DecidableEq, Repr

/-- The `EventListenerTracker` constructor: capture the current slot values,
then install the shims. -/
def newEventListenerTracker (g : Globals) : EventListenerTracker × Globals :=
  ({ listeners := [],
     originalAddEventListener := g.addEventListener,
     originalRemoveEventListener := g.removeEventListener },
   { g with addEventListener := .tracked 0, removeEventListener := .tracked 1 })

/-- `EventListenerTracker.cleanup()`: write the captured originals back and
clear the registry. -/
def eltCleanup (tr : EventListenerTracker) (g : Globals) :
    EventListenerTracker × Globals :=
  ({ tr with listeners := [] },
   { g with
       addEventListener := tr.originalAddEventListener,
       removeEventListener := tr.originalRemoveEventListener })

/-- The `TimerTracker` object: its registry plus the four captured originals. -/
structure TimerTracker where
  timers : TimerState
  originalSetTimeout : FuncRef
  originalSetInterval : FuncRef
  originalClearTimeout : FuncRef
  originalClearInterval : FuncRef
deriving DecidableEq, Repr

/-- The `TimerTracker` constructor. -/
def newTimerTracker (g : Globals) : TimerTracker × Globals :=
  ({ timers := [],
     originalSetTimeout := g.setTimeout,
     originalSetInterval := g.setInterval,
     originalClearTimeout := g.clearTimeout,
     originalClearInterval := g.clearInterval },
   { g with
       setTimeout := .tracked 2, setInterval := .tracked 3,
       clearTimeout := .tracked 4, clearInterval := .tracked 5 })

/-- `TimerTracker.cleanup()`. -/
def ttCleanup (tr : TimerTracker) (g : Globals) : TimerTracker × Globals :=
  ({ tr with timers := [] },
   { g with
       setTimeout := tr.originalSetTimeout,
       setInterval := tr.originalSetInterval,
       clearTimeout := tr.originalClearTimeout,
       clearInterval := tr.originalClearInterval })

/-! ## memory-leak-detector.ts (orchestrator) -/

/-- `Required<DetectorConfig>` after the constructor fills the defaults; the
two callbacks are modelled as the emitted `CallbackEvent` list instead of
function slots. -/
structure DetectorConfig where
  enableEventListenerTracking : Bool := true
  enableTimerTracking : Bool := true
  enableDOMTracking : Bool := true
  enableReduxTracking : Bool := true
  enablePerformanceObserver : Bool := true
  reportInterval : Int := 30000
  memoryThreshold : Int := 300
deriving DecidableEq, Repr

/-- The host-owned mutable surroundings the detector instruments. -/
structure World where
  globals : Globals
  store : Option StoreModel
  mutationObserverAvailable : Bool
deriving DecidableEq, Repr

/-- Host quantities read during one snapshot / detection pass. -/
structure Env where
  now : Int
  perfMemory : Option MemCounters
  domNodeCount : Nat
  ctorName : Target → String

/-- The `MemoryLeakDetector` object. -/
structure DetectorState where
  config : DetectorConfig
  eventTracker : Option EventListenerTracker
  timerTracker : Option TimerTracker
  domTracker : Option DOMState
  reduxTracker : Option ReduxState
  snapshots : List MemorySnapshot
  reportIntervalHandle : Option Nat
  isRunning : Bool
deriving DecidableEq, Repr

/-- The constructor plus `init()`: build each enabled tracker, patching the
globals and auto-discovering the window store. -/
def detectorInit (cfg : DetectorConfig) (w : World) : DetectorState × World :=
  let pe :=
    if cfg.enableEventListenerTracking then
      let p := newEventListenerTracker w.globals
      (some p.1, p.2)
    else (none, w.globals)
  let pt :=
    if cfg.enableTimerTracking then
      let p := newTimerTracker pe.2
      (some p.1, p.2)
    else (none, pe.2)
  let domTracker :=
    if cfg.enableDOMTracking then some (newDOMTracker w.mutationObserverAvailable)
    else none
  let pr :=
    if cfg.enableReduxTracking then
      let p := newReduxTracker w.store
      (some p.1, p.2)
    else (none, w.store)
  ({ config := cfg,
     eventTracker := pe.1,
     timerTracker := pt.1,
     domTracker := domTracker,
     reduxTracker := pr.1,
     snapshots := [],
     reportIntervalHandle := none,
     isRunning := false },
   { w with globals := pt.2, store := pr.2 })

/-- `getMemoryInfo()` combined with the `|| 0` reads in `takeSnapshot`:
when `performance.memory` is absent every counter is zero. -/
def getMemoryInfo (env : Env) : MemCounters :=
  match env.perfMemory with
  | some m => m
  | none => { heapUsed := 0, heapTotal := 0, external := 0, arrayBuffers := 0 }

/-- The append-then-trim step of `takeSnapshot`: `push` followed by
`slice(-100)` when more than 100 entries are held. -/
def pushSnapshot (snaps : List MemorySnapshot) (s : MemorySnapshot) :
    List MemorySnapshot :=
  let snaps' := snaps ++ [s]
  if snaps'.length > 100 then snaps'.drop (snaps'.length - 100) else snaps'

/-- `takeSnapshot()`: read host counters and tracker live counts, append to
history, trim to the last 100. -/
def takeSnapshot (env : Env) (st : DetectorState) :
    MemorySnapshot × DetectorState :=
  let memory := getMemoryInfo env
  let snapshot : MemorySnapshot :=
    { timestamp := env.now,
      memory := memory,
      counts :=
        { eventListeners :=
            (st.eventTracker.map (fun tr => getActiveListeners tr.listeners)).getD 0,
          timers := (st.timerTracker.map (fun tr => getActiveTimers tr.timers)).getD 0,
          domNodes := (st.domTracker.map (fun _ => env.domNodeCount)).getD 0,
          detachedNodes := (st.domTracker.map getDetachedNodeCount).getD 0 } }
  (snapshot, { st with snapshots := pushSnapshot st.snapshots snapshot })

/-- JS `toFixed(2)` for the (nonnegative in context) growth value. -/
def ratToFixed2 (q : ℚ) : String :=
  let n : ℤ := round (q * 100)
  let whole := n / 100
  let frac := (n % 100).natAbs
  let fracStr := if frac < 10 then "0" ++ toString frac else toString frac
  toString whole ++ "." ++ fracStr

/-- JS number rendering for `reportInterval / 1000` (integral case exact). -/
def jsNumToString (q : ℚ) : String :=
  if q.den = 1 then toString q.num else toString q

/-- The description string of a growth suspect. -/
def growthDescription (growthMB : ℚ) (reportInterval : Int) : String :=
  let mb := ratToFixed2 growthMB
  let secs := jsNumToString ((reportInterval : ℚ) / 1000)
  s!"Memory increased by {mb}MB in {secs}s"

/-- The cross-snapshot growth rule at the end of
`MemoryLeakDetector.detectLeaks()`: compare the heap-used counters of the
two most recent snapshots; division by 1024*1024 is exact rational
arithmetic (exact in doubles as well). -/
def growthSuspects (reportInterval : Int) (snapshots : List MemorySnapshot) :
    List LeakSuspect :=
  if snapshots.length ≥ 2 then
    let latest := snapshots.getD (snapshots.length - 1) default
    let previous := snapshots.getD (snapshots.length - 2) default
    let memoryGrowth : ℚ := ((latest.memory.heapUsed - previous.memory.heapUsed : ℤ) : ℚ)
    let growthMB : ℚ := memoryGrowth / (1024 * 1024)
    if growthMB > 10 then
      [{ type := .closure,
         severity := if growthMB > 50 then .critical else .high,
         description := growthDescription growthMB reportInterval,
         count := some (round growthMB) }]
    else []
  else []

/-- `MemoryLeakDetector.detectLeaks()`: concatenate the enabled trackers'
suspects in source order, then the growth rule. -/
def detectorDetectLeaks (env : Env) (st : DetectorState) : List LeakSuspect :=
  (match st.eventTracker with
   | some tr => listenerDetectLeaks env.ctorName tr.listeners
   | none => []) ++
  (match st.timerTracker with
   | some tr => timerDetectLeaks env.now tr.timers
   | none => []) ++
  (match st.domTracker with
   | some d => domDetectLeaks env.domNodeCount d
   | none => []) ++
  (match st.reduxTracker with
   | some r => reduxDetectLeaks env.now r
   | none => []) ++
  growthSuspects st.config.reportInterval st.snapshots

/-- The `switch` of `generateRecommendations` (all seven cases push). -/
def recommendationFor : SuspectType → String
  | .eventListener =>
      "Remove event listeners when components unmount or are no longer needed"
  | .timer => "Clear intervals and timeouts when they are no longer needed"
  | .domReference =>
      "Avoid keeping references to DOM elements after they are removed"
  | .detachedDom =>
      "Check for detached DOM nodes that should be garbage collected"
  | .closure =>
      "Review closures that might be holding references to large objects"
  | .reduxSubscription =>
      "Ensure Redux store subscriptions are properly unsubscribed when components unmount"
  | .reduxSelector =>
      "Check for infinite re-renders caused by improperly memoized selectors"

/-- `generateRecommendations(suspects)`: push one advice string per suspect,
then `[...new Set(...)]`. -/
def generateRecommendations (suspects : List LeakSuspect) : List String :=
  jsSetDedup
    (suspects.foldl (fun recs s => recs ++ [recommendationFor s.type]) [])

/-- `MemoryLeakReport` in `types.ts`. -/
structure MemoryLeakReport where
  timestamp : Int
  heapUsed : Int
  heapTotal : Int
  external : Int
  arrayBuffers : Int
  leakSuspects : List LeakSuspect
  recommendations : List String
deriving DecidableEq, Repr

/-- One invocation of a configured callback. -/
inductive CallbackEvent where
  | leak (s : LeakSuspect)
  | report (r : MemoryLeakReport)
deriving DecidableEq, Repr

/-- Result of `generateReport()`: the returned report, the updated detector
state and the callback invocations in order. -/
structure ReportOutput where
  report : MemoryLeakReport
  state : DetectorState
  events : List CallbackEvent
deriving DecidableEq, Repr

/-- `generateReport()`: snapshot, detect, recommend, then one `onLeak` per
suspect in list order and one final `onReport`. -/
def generateReport (env : Env) (st : DetectorState) : ReportOutput :=
  let p := takeSnapshot env st
  let snapshot := p.1
  let st1 := p.2
  let suspects := detectorDetectLeaks env st1
  let recommendations := generateRecommendations suspects
  let report : MemoryLeakReport :=
    { timestamp := snapshot.timestamp,
      heapUsed := snapshot.memory.heapUsed,
      heapTotal := snapshot.memory.heapTotal,
      external := snapshot.memory.external,
      arrayBuffers := snapshot.memory.arrayBuffers,
      leakSuspects := suspects,
      recommendations := recommendations }
  { report := report,
    state := st1,
    events := suspects.map .leak ++ [.report report] }

/-- `start()`: no-op while running, otherwise an immediate snapshot and the
periodic schedule (`timerId` is the host-issued interval id; the scheduling
of future cycles is host behaviour outside this state). -/
def startDetector (env : Env) (timerId : Nat) (st : DetectorState) : DetectorState :=
  if st.isRunning then st
  else
    let st1 := { st with isRunning := true }
    let st2 := (takeSnapshot env st1).2
    { st2 with reportIntervalHandle := some timerId }

/-- `stop()`: no-op while not running, otherwise cancel the periodic cycle. -/
def stopDetector (st : DetectorState) : DetectorState :=
  if !st.isRunning then st
  else { st with isRunning := false, reportIntervalHandle := none }

/-- `cleanup()`: stop, clean every constructed tracker (restoring the global
slots and the store's `subscribe`), clear the snapshot history. -/
def detectorCleanup (st : DetectorState) (w : World) : DetectorState × World :=
  let st0 := stopDetector st
  let pe :=
    match st0.eventTracker with
    | some tr => let p := eltCleanup tr w.globals; (some p.1, p.2)
    | none => (none, w.globals)
  let pt :=
    match st0.timerTracker with
    | some tr => let p := ttCleanup tr pe.2; (some p.1, p.2)
    | none => (none, pe.2)
  let domTracker := st0.domTracker.map domCleanup
  let pr :=
    match st0.reduxTracker with
    | some tr => let p := reduxCleanup tr w.store; (some p.1, p.2)
    | none => (none, w.store)
  ({ st0 with
       eventTracker := pe.1,
       timerTracker := pt.1,
       domTracker := domTracker,
       reduxTracker := pr.1,
       snapshots := [] },
   { w with globals := pt.2, store := pr.2 })

/-! ## Lemmas about the JS Map / Set model -/

/-- Total weight of a map's values. -/
def mapWeight {α β : Type} (w : β → Nat) (m : List (α × β)) : Nat :=
  (m.map (fun p => w p.2)).sum

theorem mapWeight_nil {α β : Type} (w : β → Nat) :
    mapWeight w ([] : List (α × β)) = 0 := rfl

theorem mapGet_mem {α β : Type} [DecidableEq α] {m : List (α × β)} {k : α} {v : β}
    (h : mapGet m k = some v) : (k, v) ∈ m := by
  induction m with
  | nil => simp [mapGet] at h
  | cons p rest ih =>
    obtain ⟨k0, v0⟩ := p
    by_cases hk : k0 = k
    · subst hk
      simp [mapGet] at h
      simp [h]
    · simp [mapGet, hk] at h
      exact List.mem_cons_of_mem _ (ih h)

theorem mapSet_ne_nil {α β : Type} [DecidableEq α] (m : List (α × β)) (k : α) (v : β) :
    mapSet m k v ≠ [] := by
  cases m with
  | nil => simp [mapSet]
  | cons p rest =>
    obtain ⟨k0, v0⟩ := p
    by_cases hk : k0 = k <;> simp [mapSet, hk]

theorem setAdd_ne_nil {α : Type} [DecidableEq α] (s : List α) (x : α) :
    setAdd s x ≠ [] := by
  unfold setAdd
  by_cases hx : x ∈ s
  · simp [hx]
    rintro rfl
    simp at hx
  · simp [hx]

theorem length_setAdd {α : Type} [DecidableEq α] (s : List α) (x : α) :
    (setAdd s x).length = if x ∈ s then s.length else s.length + 1 := by
  unfold setAdd
  by_cases hx : x ∈ s <;> simp [hx]

theorem mem_mapSet {α β : Type} [DecidableEq α] {m : List (α × β)} {k : α} {v : β}
    {p : α × β} (h : p ∈ mapSet m k v) : p = (k, v) ∨ p ∈ m := by
  induction m with
  | nil => simp [mapSet] at h; simp [h]
  | cons q rest ih =>
    obtain ⟨k0, v0⟩ := q
    by_cases hk : k0 = k
    · subst hk
      simp [mapSet] at h
      rcases h with h | h
      · exact Or.inl h
      · exact Or.inr (List.mem_cons_of_mem _ h)
    · simp [mapSet, hk] at h
      rcases h with h | h
      · exact Or.inr (by simp [h])
      · rcases ih h with h' | h'
        · exact Or.inl h'
        · exact Or.inr (List.mem_cons_of_mem _ h')

theorem mem_mapDelete {α β : Type} [DecidableEq α] {m : List (α × β)} {k : α}
    {p : α × β} (h : p ∈ mapDelete m k) : p ∈ m := by
  induction m with
  | nil => simp [mapDelete] at h
  | cons q rest ih =>
    obtain ⟨k0, v0⟩ := q
    by_cases hk : k0 = k
    · subst hk
      simp [mapDelete] at h
      exact List.mem_cons_of_mem _ h
    · simp [mapDelete, hk] at h
      rcases h with h | h
      · simp [h]
      · exact List.mem_cons_of_mem _ (ih h)

theorem mapSet_self {α β : Type} [DecidableEq α] {m : List (α × β)} {k : α} {v : β}
    (h : mapGet m k = some v) : mapSet m k v = m := by
  induction m with
  | nil => simp [mapGet] at h
  | cons q rest ih =>
    obtain ⟨k0, v0⟩ := q
    by_cases hk : k0 = k
    · subst hk
      simp [mapGet] at h
      simp [mapSet, h]
    · simp [mapGet, hk] at h
      simp [mapSet, hk, ih h]

theorem mapWeight_mapSet_none {α β : Type} [DecidableEq α] (w : β → Nat)
    {m : List (α × β)} {k : α} (v : β) (h : mapGet m k = none) :
    mapWeight w (mapSet m k v) = mapWeight w m + w v := by
  induction m with
  | nil => simp [mapWeight, mapSet]
  | cons q rest ih =>
    obtain ⟨k0, v0⟩ := q
    by_cases hk : k0 = k
    · simp [mapGet, hk] at h
    · simp [mapGet, hk] at h
      simp [mapWeight, mapSet, hk] at ih ⊢
      rw [ih h]
      omega

theorem mapWeight_mapSet_some {α β : Type} [DecidableEq α] (w : β → Nat)
    {m : List (α × β)} {k : α} {u : β} (v : β) (h : mapGet m k = some u) :
    mapWeight w (mapSet m k v) + w u = mapWeight w m + w v := by
  induction m with
  | nil => simp [mapGet] at h
  | cons q rest ih =>
    obtain ⟨k0, v0⟩ := q
    by_cases hk : k0 = k
    · subst hk
      simp [mapGet] at h
      subst h
      simp [mapSet, mapWeight]
      omega
    · simp [mapGet, hk] at h
      simp [mapWeight, mapSet, hk] at ih ⊢
      have := ih h
      omega

theorem mapWeight_mapDelete_some {α β : Type} [DecidableEq α] (w : β → Nat)
    {m : List (α × β)} {k : α} {u : β} (h : mapGet m k = some u) :
    mapWeight w (mapDelete m k) + w u = mapWeight w m := by
  induction m with
  | nil => simp [mapGet] at h
  | cons q rest ih =>
    obtain ⟨k0, v0⟩ := q
    by_cases hk : k0 = k
    · subst hk
      simp [mapGet] at h
      subst h
      simp [mapDelete, mapWeight]
      omega
    · simp [mapGet, hk] at h
      simp [mapWeight, mapDelete, hk] at ih ⊢
      have := ih h
      omega

/-! ## Listener registry counting -/

theorem getActiveListeners_eq_mapWeight (st : ListenerState) :
    getActiveListeners st = mapWeight targetTotal st := rfl

theorem targetTotal_eq_mapWeight (tl : List (EvType × List Listener)) :
    targetTotal tl = mapWeight List.length tl := rfl

theorem trackedB_none_target {st : ListenerState} {t : Target} (ty : EvType)
    (l : Listener) (hst : mapGet st t = none) : trackedB st t ty l = false := by
  unfold trackedB
  rw [hst]

theorem trackedB_none_type {st : ListenerState} {t : Target}
    {tl : List (EvType × List Listener)} {ty : EvType} (l : Listener)
    (hst : mapGet st t = some tl) (hty : mapGet tl ty = none) :
    trackedB st t ty l = false := by
  unfold trackedB
  simp only [hst, hty]

theorem trackedB_some {st : ListenerState} {t : Target}
    {tl : List (EvType × List Listener)} {ty : EvType} {s : List Listener}
    (l : Listener) (hst : mapGet st t = some tl) (hty : mapGet tl ty = some s) :
    trackedB st t ty l = decide (l ∈ s) := by
  unfold trackedB
  simp only [hst, hty]

theorem addListener_none_target {st : ListenerState} {t : Target} (ty : EvType)
    (l : Listener) (hst : mapGet st t = none) :
    addListener st t ty l = mapSet st t (mapSet [] ty [l]) := by
  unfold addListener
  rw [hst]
  simp [setAdd, mapGet]

theorem addListener_none_type {st : ListenerState} {t : Target}
    {tl : List (EvType × List Listener)} {ty : EvType} (l : Listener)
    (hst : mapGet st t = some tl) (hty : mapGet tl ty = none) :
    addListener st t ty l = mapSet st t (mapSet tl ty [l]) := by
  unfold addListener
  simp only [hst, Option.getD_some, hty, Option.getD_none]
  simp [setAdd]

theorem addListener_some {st : ListenerState} {t : Target}
    {tl : List (EvType × List Listener)} {ty : EvType} {s : List Listener}
    (l : Listener) (hst : mapGet st t = some tl) (hty : mapGet tl ty = some s) :
    addListener st t ty l = mapSet st t (mapSet tl ty (setAdd s l)) := by
  unfold addListener
  simp only [hst, Option.getD_some, hty]

theorem removeListener_none_target {st : ListenerState} {t : Target} (ty : EvType)
    (l : Listener) (hst : mapGet st t = none) : removeListener st t ty l = st := by
  unfold removeListener
  rw [hst]

theorem removeListener_none_type {st : ListenerState} {t : Target}
    {tl : List (EvType × List Listener)} {ty : EvType} (l : Listener)
    (hst : mapGet st t = some tl) (hty : mapGet tl ty = none) :
    removeListener st t ty l = st := by
  unfold removeListener
  simp only [hst, hty]

theorem removeListener_some {st : ListenerState} {t : Target}
    {tl : List (EvType × List Listener)} {ty : EvType} {s : List Listener}
    (l : Listener) (hst : mapGet st t = some tl) (hty : mapGet tl ty = some s) :
    removeListener st t ty l =
      (if (if s.erase l = [] then mapDelete tl ty else mapSet tl ty (s.erase l)) = []
       then mapDelete st t
       else mapSet st t
        (if s.erase l = [] then mapDelete tl ty else mapSet tl ty (s.erase l))) := by
  unfold removeListener
  simp only [hst, hty]

/-- An acquire grows the count by one exactly when the triple was untracked
(re-adding a tracked listener is a `Set.add` no-op). -/
theorem count_addListener (st : ListenerState) (t : Target) (ty : EvType) (l : Listener) :
    getActiveListeners (addListener st t ty l) =
      getActiveListeners st + (if trackedB st t ty l then 0 else 1) := by
  cases hst : mapGet st t with
  | none =>
    rw [addListener_none_target ty l hst, trackedB_none_target ty l hst]
    rw [getActiveListeners_eq_mapWeight, getActiveListeners_eq_mapWeight,
      mapWeight_mapSet_none targetTotal _ hst]
    simp [targetTotal, mapSet]
  | some tl =>
    cases hty : mapGet tl ty with
    | none =>
      rw [addListener_none_type l hst hty, trackedB_none_type l hst hty]
      have hout := mapWeight_mapSet_some targetTotal (mapSet tl ty [l]) hst
      have hin := mapWeight_mapSet_none List.length ([l] : List Listener) hty
      rw [getActiveListeners_eq_mapWeight, getActiveListeners_eq_mapWeight]
      rw [targetTotal_eq_mapWeight, targetTotal_eq_mapWeight] at hout
      simp only [List.length_singleton] at hin
      simp only [Bool.false_eq_true, if_false]
      omega
    | some s =>
      rw [addListener_some l hst hty, trackedB_some l hst hty]
      have hout := mapWeight_mapSet_some targetTotal (mapSet tl ty (setAdd s l)) hst
      have hin := mapWeight_mapSet_some List.length (setAdd s l) hty
      have hlen := length_setAdd s l
      rw [getActiveListeners_eq_mapWeight, getActiveListeners_eq_mapWeight]
      rw [targetTotal_eq_mapWeight, targetTotal_eq_mapWeight] at hout
      by_cases hmem : l ∈ s
      · simp [hmem] at hlen ⊢
        omega
      · simp [hmem] at hlen ⊢
        omega

/-- A release shrinks the count by one exactly when the triple was tracked
(the count-level half of the no-op property; holds for all states). -/
theorem count_removeListener (st : ListenerState) (t : Target) (ty : EvType) (l : Listener) :
    getActiveListeners (removeListener st t ty l) +
      (if trackedB st t ty l then 1 else 0) = getActiveListeners st := by
  cases hst : mapGet st t with
  | none =>
    rw [removeListener_none_target ty l hst, trackedB_none_target ty l hst]
    simp
  | some tl =>
    cases hty : mapGet tl ty with
    | none =>
      rw [removeListener_none_type l hst hty, trackedB_none_type l hst hty]
      simp
    | some s =>
      rw [removeListener_some l hst hty, trackedB_some l hst hty]
      have hsl : (s.erase l).length + (if l ∈ s then 1 else 0) = s.length := by
        by_cases hmem : l ∈ s
        · have h1 := List.length_erase_of_mem hmem
          have h2 : 0 < s.length := List.length_pos.mpr (List.ne_nil_of_mem hmem)
          simp only [hmem, if_true]
          omega
        · simp [hmem, List.erase_of_not_mem hmem]
      by_cases h1 : s.erase l = []
      · have htl := mapWeight_mapDelete_some List.length hty
        by_cases h2 : mapDelete tl ty = []
        · have hout := mapWeight_mapDelete_some targetTotal hst
          simp only [h1, if_true, h2]
          rw [getActiveListeners_eq_mapWeight, getActiveListeners_eq_mapWeight]
          rw [targetTotal_eq_mapWeight] at hout
          rw [h1] at hsl
          rw [h2] at htl
          simp only [mapWeight_nil, List.length_nil] at htl hsl
          by_cases hmem : l ∈ s
          · simp [hmem] at hsl ⊢
            omega
          · simp [hmem] at hsl ⊢
            omega
        · have hout := mapWeight_mapSet_some targetTotal (mapDelete tl ty) hst
          simp only [h1, if_true, h2, if_false]
          rw [getActiveListeners_eq_mapWeight, getActiveListeners_eq_mapWeight]
          rw [targetTotal_eq_mapWeight, targetTotal_eq_mapWeight] at hout
          rw [h1] at hsl
          simp only [List.length_nil] at hsl
          by_cases hmem : l ∈ s
          · simp [hmem] at hsl ⊢
            omega
          · simp [hmem] at hsl ⊢
            omega
      · have h2 : mapSet tl ty (s.erase l) ≠ [] := mapSet_ne_nil tl ty (s.erase l)
        have htl := mapWeight_mapSet_some List.length (s.erase l) hty
        have hout := mapWeight_mapSet_some targetTotal (mapSet tl ty (s.erase l)) hst
        simp only [h1, if_false, h2]
        rw [getActiveListeners_eq_mapWeight, getActiveListeners_eq_mapWeight]
        rw [targetTotal_eq_mapWeight, targetTotal_eq_mapWeight] at hout
        by_cases hmem : l ∈ s
        · simp [hmem] at hsl htl ⊢
          omega
        · simp [hmem] at hsl htl ⊢
          omega

/-- Along any run, the live count plus the matched releases equals the
starting count plus the effective acquires. -/
theorem count_lRun (ops : List LOp) :
    ∀ st : ListenerState,
      getActiveListeners (lRun st ops) + effReleases st ops =
        getActiveListeners st + effAcquires st ops := by
  induction ops with
  | nil => intro st; simp [lRun, effAcquires, effReleases]
  | cons op rest ih =>
    intro st
    have hr : lRun st (op :: rest) = lRun (lStep st op) rest := rfl
    rw [hr]
    have htail := ih (lStep st op)
    cases op with
    | add t ty l =>
      have ha := count_addListener st t ty l
      simp only [effAcquires, effReleases, lStep] at htail ⊢
      by_cases htr : trackedB st t ty l
      · simp only [htr, if_true] at ha ⊢
        omega
      · simp only [htr, Bool.false_eq_true, if_false] at ha ⊢
        omega
    | remove t ty l =>
      have ha := count_removeListener st t ty l
      simp only [effAcquires, effReleases, lStep] at htail ⊢
      by_cases htr : trackedB st t ty l
      · simp only [htr, if_true] at ha ⊢
        omega
      · simp only [htr, Bool.false_eq_true, if_false] at ha ⊢
        omega

/-- Wellformedness the source maintains: no empty listener set and no empty
per-target map is ever stored (empties are deleted eagerly). -/
def lWF (st : ListenerState) : Prop :=
  ∀ p ∈ st, p.2 ≠ [] ∧ ∀ q ∈ p.2, q.2 ≠ []

theorem lWF_addListener {st : ListenerState} (t : Target) (ty : EvType)
    (l : Listener) (hwf : lWF st) : lWF (addListener st t ty l) := by
  cases hst : mapGet st t with
  | none =>
    rw [addListener_none_target ty l hst]
    intro p hp
    rcases mem_mapSet hp with h | h
    · subst h
      refine ⟨mapSet_ne_nil _ _ _, ?_⟩
      intro q hq
      rcases mem_mapSet hq with h' | h'
      · subst h'; simp
      · simp at h'
    · exact hwf p h
  | some tl =>
    have htl := hwf _ (mapGet_mem hst)
    cases hty : mapGet tl ty with
    | none =>
      rw [addListener_none_type l hst hty]
      intro p hp
      rcases mem_mapSet hp with h | h
      · subst h
        refine ⟨mapSet_ne_nil _ _ _, ?_⟩
        intro q hq
        rcases mem_mapSet hq with h' | h'
        · subst h'; simp
        · exact htl.2 q h'
      · exact hwf p h
    | some s =>
      rw [addListener_some l hst hty]
      intro p hp
      rcases mem_mapSet hp with h | h
      · subst h
        refine ⟨mapSet_ne_nil _ _ _, ?_⟩
        intro q hq
        rcases mem_mapSet hq with h' | h'
        · subst h'; exact setAdd_ne_nil s l
        · exact htl.2 q h'
      · exact hwf p h

theorem lWF_removeListener {st : ListenerState} (t : Target) (ty : EvType)
    (l : Listener) (hwf : lWF st) : lWF (removeListener st t ty l) := by
  cases hst : mapGet st t with
  | none => rw [removeListener_none_target ty l hst]; exact hwf
  | some tl =>
    have htl := hwf _ (mapGet_mem hst)
    cases hty : mapGet tl ty with
    | none => rw [removeListener_none_type l hst hty]; exact hwf
    | some s =>
      rw [removeListener_some l hst hty]
      by_cases h1 : s.erase l = []
      · simp only [h1, if_true]
        by_cases h2 : mapDelete tl ty = []
        · simp only [h2, if_true]
          intro p hp
          exact hwf p (mem_mapDelete hp)
        · simp only [h2, if_false]
          intro p hp
          rcases mem_mapSet hp with h | h
          · subst h
            refine ⟨h2, ?_⟩
            intro q hq
            exact htl.2 q (mem_mapDelete hq)
          · exact hwf p h
      · have h2 : mapSet tl ty (s.erase l) ≠ [] := mapSet_ne_nil tl ty (s.erase l)
        simp only [h1, if_false, h2]
        intro p hp
        rcases mem_mapSet hp with h | h
        · subst h
          refine ⟨h2, ?_⟩
          intro q hq
          rcases mem_mapSet hq with h' | h'
          · subst h'; exact h1
          · exact htl.2 q h'
        · exact hwf p h

/-- On a wellformed state an untracked release leaves the state unchanged. -/
theorem removeListener_noop {st : ListenerState} (t : Target) (ty : EvType)
    (l : Listener) (hwf : lWF st) (h : trackedB st t ty l = false) :
    removeListener st t ty l = st := by
  cases hst : mapGet st t with
  | none => exact removeListener_none_target ty l hst
  | some tl =>
    cases hty : mapGet tl ty with
    | none => exact removeListener_none_type l hst hty
    | some s =>
      rw [trackedB_some l hst hty] at h
      have hmem : l ∉ s := by simpa using h
      have htl := hwf _ (mapGet_mem hst)
      have hs : s ≠ [] := htl.2 _ (mapGet_mem hty)
      rw [removeListener_some l hst hty]
      rw [List.erase_of_not_mem hmem]
      simp only [hs, if_false]
      rw [mapSet_self hty]
      have htlne : tl ≠ [] := htl.1
      simp only [htlne, if_false]
      exact mapSet_self hst

theorem lWF_lStep {st : ListenerState} (op : LOp) (hwf : lWF st) :
    lWF (lStep st op) := by
  cases op with
  | add t ty l => exact lWF_addListener t ty l hwf
  | remove t ty l => exact lWF_removeListener t ty l hwf

theorem lWF_lRun (ops : List LOp) : ∀ st : ListenerState, lWF st → lWF (lRun st ops) := by
  induction ops with
  | nil => intro st h; exact h
  | cons op rest ih =>
    intro st h
    exact ih (lStep st op) (lWF_lStep op h)

/-- C1 counterexample: two identical `addEventListener` calls are two
acquires and zero matched releases, yet `getActiveListeners()` is 1, not 2
(`Set.add` ignores the duplicate). -/
theorem listener_count_claim_counterexample :
    getActiveListeners (lRun [] [LOp.add 0 0 0, LOp.add 0 0 0]) = 1 ∧
    rawAcquires [LOp.add 0 0 0, LOp.add 0 0 0] = 2 ∧
    effReleases [] [LOp.add 0 0 0, LOp.add 0 0 0] = 0 ∧
    getActiveListeners (lRun [] [LOp.add 0 0 0, LOp.add 0 0 0]) ≠
      rawAcquires [LOp.add 0 0 0, LOp.add 0 0 0] -
        effReleases [] [LOp.add 0 0 0, LOp.add 0 0 0] := by
  decide

/-- C1 (amended): for every sequence of acquire/release calls from the empty
registry, `getActiveListeners()` equals the number of *effective* acquires
(those whose (target, kind, listener) triple was untracked; a duplicate
acquire is a `Set.add` no-op) minus the number of matched releases, matched
releases never exceed effective acquires (the count never goes negative),
and a release with no matching tracked handle leaves the registry unchanged. -/
theorem listener_count_invariant (ops : List LOp) :
    getActiveListeners (lRun [] ops) + effReleases [] ops = effAcquires [] ops ∧
    effReleases [] ops ≤ effAcquires [] ops ∧
    (∀ t ty l, trackedB (lRun [] ops) t ty l = false →
      removeListener (lRun [] ops) t ty l = lRun [] ops) := by
  have h := count_lRun ops []
  have h0 : getActiveListeners ([] : ListenerState) = 0 := rfl
  refine ⟨by omega, by omega, ?_⟩
  intro t ty l htr
  have hwf : lWF (lRun [] ops) := lWF_lRun ops [] (by intro p hp; simp at hp)
  exact removeListener_noop t ty l hwf htr

/-- C1 witness: a concrete instantiation of the amended theorem's no-op
clause. -/
theorem listener_count_invariant_witness :
    removeListener (lRun [] [LOp.add 1 2 3]) 4 5 6 = lRun [] [LOp.add 1 2 3] :=
  (listener_count_invariant [LOp.add 1 2 3]).2.2 4 5 6 (by decide)

/-! ## C2: the listener detection rule -/

/-- Live count of one (target, event-kind) key. -/
def keyCount (st : ListenerState) (t : Target) (ty : EvType) : Nat :=
  match mapGet st t with
  | none => 0
  | some tl =>
    match mapGet tl ty with
    | none => 0
    | some s => s.length

/-- The suspect `EventListenerTracker.detectLeaks()` builds for one target. -/
def listenerSuspectFor (ctorName : Target → String)
    (p : Target × List (EvType × List Listener)) : LeakSuspect :=
  let totalListeners := targetTotal p.2
  { type := .eventListener,
    severity := if totalListeners > 100 then .critical else .high,
    description :=
      s!"{totalListeners} event listeners attached to {ctorName p.1}",
    count := some (totalListeners : Int) }

/-- The fold in `detectLeaks` is the filter-map over targets whose summed
listener count exceeds 50. -/
theorem listenerDetectLeaks_eq_filterMap (ctorName : Target → String)
    (st : ListenerState) :
    listenerDetectLeaks ctorName st =
      (st.filter (fun p => 50 < targetTotal p.2)).map (listenerSuspectFor ctorName) := by
  have key : ∀ (l : ListenerState) (acc : List LeakSuspect),
      l.foldl
        (fun suspects p =>
          let totalListeners := targetTotal p.2
          if totalListeners > 50 then
            suspects ++
              [{ type := .eventListener,
                 severity := if totalListeners > 100 then .critical else .high,
                 description :=
                   s!"{totalListeners} event listeners attached to {ctorName p.1}",
                 count := some (totalListeners : Int) }]
          else suspects)
        acc =
      acc ++ (l.filter (fun p => 50 < targetTotal p.2)).map (listenerSuspectFor ctorName) := by
    intro l
    induction l with
    | nil => intro acc; simp
    | cons p rest ih =>
      intro acc
      simp only [List.foldl_cons, List.filter_cons]
      by_cases hp : 50 < targetTotal p.2
      · simp only [hp, if_true, decide_eq_true_eq, gt_iff_lt]
        rw [ih]
        simp [listenerSuspectFor, hp]
      · simp only [hp, if_false, decide_eq_true_eq, gt_iff_lt]
        rw [ih]
  exact key st []

/-- C2 (amended form, also the general statement): the tracker emits one
suspect per *target* with total count over 50, severity from that total. -/
theorem listener_detect_per_target (ctorName : Target → String) (st : ListenerState) :
    listenerDetectLeaks ctorName st =
      (st.filter (fun p => 50 < targetTotal p.2)).map
        (fun p =>
          { type := .eventListener,
            severity := if 100 < targetTotal p.2 then .critical else .high,
            description :=
              s!"{targetTotal p.2} event listeners attached to {ctorName p.1}",
            count := some ((targetTotal p.2 : Nat) : Int) }) := by
  rw [listenerDetectLeaks_eq_filterMap]
  apply List.map_congr_left
  intro p _
  simp [listenerSuspectFor]

/-- The registry state after 30 acquires of kind 0 and 30 of kind 1 on one
target: both keys hold 30 listeners. -/
def perKeyOps : List LOp :=
  (List.range 30).map (fun l => LOp.add 0 0 l) ++
    (List.range 30).map (fun l => LOp.add 0 1 l)

/-- C2 counterexample: every (target, event-kind) key holds 30 ≤ 50
listeners, yet `detectLeaks` emits a (high) suspect, because the source sums
the counts per target across event kinds. -/
theorem listener_perkey_claim_counterexample :
    (lRun [] perKeyOps).map (fun p => (p.1, p.2.map (fun q => (q.1, q.2.length)))) =
      [(0, [(0, 30), (1, 30)])] ∧
    keyCount (lRun [] perKeyOps) 0 0 = 30 ∧
    keyCount (lRun [] perKeyOps) 0 1 = 30 ∧
    listenerDetectLeaks (fun _ => "EventTarget") (lRun [] perKeyOps) =
      [{ type := .eventListener,
         severity := .high,
         description := "60 event listeners attached to EventTarget",
         count := some 60 }] := by
  decide

/-! ## C3: the snapshot history window -/

/-- A minimal distinct snapshot used to exercise the history window. -/
def plainSnap (i : Nat) : MemorySnapshot :=
  { timestamp := (i : Int),
    memory := { heapUsed := 0, heapTotal := 0, external := 0, arrayBuffers := 0 },
    counts := { eventListeners := 0, timers := 0, domNodes := 0, detachedNodes := 0 } }

theorem pushSnapshot_length_le (snaps : List MemorySnapshot) (s : MemorySnapshot) :
    (pushSnapshot snaps s).length ≤ 100 := by
  unfold pushSnapshot
  by_cases h : (snaps ++ [s]).length > 100
  · simp only [h, if_true, List.length_drop]
    omega
  · simp only [h, if_false]
    omega

set_option maxRecDepth 40000 in
/-- C3: the history never exceeds 100 entries after a `takeSnapshot`;
insertion is append followed by dropping the oldest entries beyond 100; and
150 insertions from empty leave exactly the 100 most recent, in order. -/
theorem snapshot_history_window :
    (∀ (env : Env) (st : DetectorState),
      ((takeSnapshot env st).2.snapshots).length ≤ 100) ∧
    (∀ (snaps : List MemorySnapshot) (s : MemorySnapshot),
      pushSnapshot snaps s = (snaps ++ [s]).drop ((snaps ++ [s]).length - 100)) ∧
    (List.range 150).foldl (fun h i => pushSnapshot h (plainSnap i)) [] =
      (List.range' 50 100).map plainSnap := by
  refine ⟨?_, ?_, ?_⟩
  · intro env st
    exact pushSnapshot_length_le st.snapshots _
  · intro snaps s
    unfold pushSnapshot
    by_cases h : (snaps ++ [s]).length > 100
    · simp only [h, if_true]
    · simp only [h, if_false]
      have h0 : (snaps ++ [s]).length - 100 = 0 := by omega
      rw [h0, List.drop_zero]
  · decide

/-! ## C4: the growth rule -/

/-- A snapshot whose heap-used counter is the given number of megabytes. -/
def heapSnap (mb : Int) : MemorySnapshot :=
  { timestamp := 0,
    memory := { heapUsed := mb * 1048576, heapTotal := 0, external := 0, arrayBuffers := 0 },
    counts := { eventListeners := 0, timers := 0, domNodes := 0, detachedNodes := 0 } }

theorem getD_append_two_last {α : Type} (d a b : α) :
    ∀ rest : List α, (rest ++ [a, b]).getD (rest.length + 1) d = b := by
  intro rest
  induction rest with
  | nil => rfl
  | cons x xs ih => simpa using ih

theorem getD_append_two_first {α : Type} (d a b : α) :
    ∀ rest : List α, (rest ++ [a, b]).getD rest.length d = a := by
  intro rest
  induction rest with
  | nil => rfl
  | cons x xs ih => simpa using ih

/-- The growth rule evaluated on a history ending in the two snapshots
`prev`, `latest`. -/
theorem growthSuspects_last_two (interval : Int) (rest : List MemorySnapshot)
    (prev latest : MemorySnapshot) :
    growthSuspects interval (rest ++ [prev, latest]) =
      (let growthMB : ℚ :=
        ((latest.memory.heapUsed - prev.memory.heapUsed : ℤ) : ℚ) / (1024 * 1024)
       if growthMB > 10 then
        [{ type := .closure,
           severity := if growthMB > 50 then .critical else .high,
           description := growthDescription growthMB interval,
           count := some (round growthMB) }]
       else []) := by
  unfold growthSuspects
  have hlen : (rest ++ [prev, latest]).length = rest.length + 2 := by simp
  rw [hlen]
  rw [if_pos (by omega)]
  have e1 : rest.length + 2 - 1 = rest.length + 1 := by omega
  have e2 : rest.length + 2 - 2 = rest.length := by omega
  rw [e1, e2, getD_append_two_last, getD_append_two_first]

/-- C4: the growth rule is skipped with fewer than two snapshots; otherwise
it fires on the two most recent snapshots exactly when the heap-used delta
exceeds 10 MB, with severity critical exactly over 50 MB and magnitude the
rounded MB delta; heap-used 100 MB → 112 MB yields one high suspect of
magnitude 12, and 100 MB → 105 MB yields none. -/
theorem growth_rule (interval : Int) :
    (∀ snaps : List MemorySnapshot, snaps.length < 2 →
      growthSuspects interval snaps = []) ∧
    (∀ (rest : List MemorySnapshot) (prev latest : MemorySnapshot),
      growthSuspects interval (rest ++ [prev, latest]) =
        (let growthMB : ℚ :=
          ((latest.memory.heapUsed - prev.memory.heapUsed : ℤ) : ℚ) / (1024 * 1024)
         if growthMB > 10 then
          [{ type := .closure,
             severity := if growthMB > 50 then .critical else .high,
             description := growthDescription growthMB interval,
             count := some (round growthMB) }]
         else [])) ∧
    growthSuspects 30000 [heapSnap 100, heapSnap 112] =
      [{ type := .closure, severity := .high,
         description := "Memory increased by 12.00MB in 30s",
         count := some 12 }] ∧
    growthSuspects 30000 [heapSnap 100, heapSnap 105] = [] := by
  refine ⟨?_, growthSuspects_last_two interval, ?_, ?_⟩
  · intro snaps h
    unfold growthSuspects
    rw [if_neg (by omega)]
  · have hq : (((heapSnap 112).memory.heapUsed - (heapSnap 100).memory.heapUsed : ℤ) : ℚ) /
        (1024 * 1024) = 12 := by
      norm_num [heapSnap]
    have h1 : round ((12 : ℚ) * 100) = 1200 := by
      norm_num [round_eq, Int.floor_eq_iff]
    have h2 : ((30000 : Int) : ℚ) / 1000 = 30 := by norm_num
    have h3 : round (12 : ℚ) = 12 := by
      norm_num [round_eq, Int.floor_eq_iff]
    have hsplit : ([heapSnap 100, heapSnap 112] : List MemorySnapshot) =
        [] ++ [heapSnap 100, heapSnap 112] := rfl
    rw [hsplit, growthSuspects_last_two]
    simp only [hq]
    rw [if_pos (by norm_num), if_neg (by norm_num)]
    unfold growthDescription ratToFixed2 jsNumToString
    simp only [h1, h2, h3]
    decide
  · have hq : (((heapSnap 105).memory.heapUsed - (heapSnap 100).memory.heapUsed : ℤ) : ℚ) /
        (1024 * 1024) = 5 := by
      norm_num [heapSnap]
    have hsplit : ([heapSnap 100, heapSnap 105] : List MemorySnapshot) =
        [] ++ [heapSnap 100, heapSnap 105] := rfl
    rw [hsplit, growthSuspects_last_two]
    simp only [hq]
    rw [if_neg (by norm_num)]

/-- C4 witness: the skip clause applied to the empty history. -/
theorem growth_rule_witness : growthSuspects 30000 [] = [] :=
  (growth_rule 30000).1 [] (by decide)

/-! ## C5: the timer detection rules -/

/-- 25 repeating timers acquired at time 0 (ids 1..25). -/
def repeat25 : TimerState :=
  (List.range 25).foldl (fun s i => setIntervalTrack s (i + 1) 0 none) []

/-- C5: the timer tracker applies the old-timer rule and the repeating-timer
rule independently (both may fire in one cycle); 25 fresh repeating timers
yield exactly one suspect, severity medium, magnitude 25. -/
theorem timer_detect_rules :
    (∀ (now : Int) (st : TimerState),
      timerDetectLeaks now st =
        (if oldTimerCount now st > 10 then
          [{ type := .timer,
             severity := if oldTimerCount now st > 50 then .critical else .high,
             description :=
               s!"{oldTimerCount now st} timers running for more than 5 minutes",
             count := some ((oldTimerCount now st : Nat) : Int) }]
         else []) ++
        (if intervalCount st > 20 then
          [{ type := .timer,
             severity := if intervalCount st > 100 then .critical else .medium,
             description := s!"{intervalCount st} active intervals detected",
             count := some ((intervalCount st : Nat) : Int) }]
         else [])) ∧
    (∀ (now : Int) (st : TimerState),
      (∀ p ∈ st, p.2.type = TimerKind.interval ∧ p.2.created = now) →
      st.length = 25 →
      timerDetectLeaks now st =
        [{ type := .timer, severity := .medium,
           description := "25 active intervals detected",
           count := some 25 }]) ∧
    timerDetectLeaks 400000 repeat25 =
      [{ type := .timer, severity := .high,
         description := "25 timers running for more than 5 minutes",
         count := some 25 },
       { type := .timer, severity := .medium,
         description := "25 active intervals detected",
         count := some 25 }] := by
  refine ⟨fun now st => rfl, ?_, by decide⟩
  intro now st hall hlen
  have h1 : oldTimerCount now st = 0 := by
    unfold oldTimerCount
    have hnil : st.filter (fun p => now - p.2.created > 5 * 60 * 1000) = [] := by
      rw [List.filter_eq_nil_iff]
      intro p hp
      have := (hall p hp).2
      simp [this]
    rw [hnil]
    rfl
  have h2 : intervalCount st = 25 := by
    unfold intervalCount
    have hself : st.filter (fun p => p.2.type = TimerKind.interval) = st := by
      rw [List.filter_eq_self]
      intro p hp
      have := (hall p hp).1
      simp [this]
    rw [hself, hlen]
  unfold timerDetectLeaks
  rw [h1, h2]
  decide

/-- C5 witness: the fresh-repeating-timers clause applied to the concrete
25-interval state at time 0. -/
theorem timer_detect_rules_witness :
    timerDetectLeaks 0 repeat25 =
      [{ type := .timer, severity := .medium,
         description := "25 active intervals detected",
         count := some 25 }] :=
  timer_detect_rules.2.1 0 repeat25 (by decide) (by decide)

/-! ## C8: cleanup idempotence and restoration -/

/-- Replace every registry-level field of a detector: the states reachable
from construction by tracked acquire/release traffic, selector counting,
snapshots and start/stop differ from the freshly constructed detector in
exactly these fields. -/
def withRegistries (st : DetectorState) (ls : ListenerState) (ts : TimerState)
    (dn : List Nat) (nc : Nat) (subs : List (Rat × SubInfo))
    (sels : List (String × SelStats)) (snaps : List MemorySnapshot)
    (handle : Option Nat) (run : Bool) : DetectorState :=
  { st with
      eventTracker := st.eventTracker.map (fun tr => { tr with listeners := ls }),
      timerTracker := st.timerTracker.map (fun tr => { tr with timers := ts }),
      domTracker := st.domTracker.map (fun d => { d with detachedNodes := dn, nodeCount := nc }),
      reduxTracker := st.reduxTracker.map
        (fun r => { r with storeSubscriptions := subs, selectorCalls := sels }),
      snapshots := snaps,
      reportIntervalHandle := handle,
      isRunning := run }

/-- Store-side activity (subscribe calls) changes only the token counter and
the call log, never the `subscribe` slot. -/
def withStoreActivity (w : World) (tok : Nat) (log : List StoreCall) : World :=
  { w with store := w.store.map (fun s => { s with nextToken := tok, log := log }) }

set_option maxHeartbeats 2000000 in
theorem cleanup_idem_helper (st : DetectorState) (w : World) :
    detectorCleanup (detectorCleanup st w).1 (detectorCleanup st w).2 =
      detectorCleanup st w := by
  obtain ⟨cfg, et, tt, dt, rt, snaps, handle, run⟩ := st
  obtain ⟨g, store, mo⟩ := w
  cases run
  all_goals cases et
  all_goals cases tt
  all_goals cases dt
  all_goals rcases rt with _ | ⟨subs, sels, orig, sref⟩
  all_goals try (cases orig)
  all_goals try (cases sref)
  all_goals cases store
  all_goals simp [detectorCleanup, stopDetector, eltCleanup, ttCleanup, domCleanup, reduxCleanup]

set_option maxHeartbeats 4000000 in
/-- C8: for any configuration and any state reachable from construction by
registry-mutating use, a second `cleanup()` changes nothing (and the model
is total, so neither call can throw); after cleanup the global entry points
hold exactly their pre-construction (pre-shim) values, the patched store's
`subscribe` is the pre-patch one, every tracker reports a zero active count,
and the snapshot history is empty. -/
theorem cleanup_idempotent_and_restores (cfg : DetectorConfig) (w0 : World)
    (ls : ListenerState) (ts : TimerState) (dn : List Nat) (nc : Nat)
    (subs : List (Rat × SubInfo)) (sels : List (String × SelStats))
    (snaps : List MemorySnapshot) (handle : Option Nat) (run : Bool)
    (tok : Nat) (log : List StoreCall) :
    detectorCleanup
        (detectorCleanup
          (withRegistries (detectorInit cfg w0).1 ls ts dn nc subs sels snaps handle run)
          (withStoreActivity (detectorInit cfg w0).2 tok log)).1
        (detectorCleanup
          (withRegistries (detectorInit cfg w0).1 ls ts dn nc subs sels snaps handle run)
          (withStoreActivity (detectorInit cfg w0).2 tok log)).2 =
      detectorCleanup
        (withRegistries (detectorInit cfg w0).1 ls ts dn nc subs sels snaps handle run)
        (withStoreActivity (detectorInit cfg w0).2 tok log) ∧
    (detectorCleanup
        (withRegistries (detectorInit cfg w0).1 ls ts dn nc subs sels snaps handle run)
        (withStoreActivity (detectorInit cfg w0).2 tok log)).2.globals = w0.globals ∧
    ((detectorCleanup
        (withRegistries (detectorInit cfg w0).1 ls ts dn nc subs sels snaps handle run)
        (withStoreActivity (detectorInit cfg w0).2 tok log)).2.store).map
        StoreModel.subscribe = (w0.store).map StoreModel.subscribe ∧
    ((detectorCleanup
        (withRegistries (detectorInit cfg w0).1 ls ts dn nc subs sels snaps handle run)
        (withStoreActivity (detectorInit cfg w0).2 tok log)).1.eventTracker.map
        (fun tr => getActiveListeners tr.listeners)).getD 0 = 0 ∧
    ((detectorCleanup
        (withRegistries (detectorInit cfg w0).1 ls ts dn nc subs sels snaps handle run)
        (withStoreActivity (detectorInit cfg w0).2 tok log)).1.timerTracker.map
        (fun tr => getActiveTimers tr.timers)).getD 0 = 0 ∧
    ((detectorCleanup
        (withRegistries (detectorInit cfg w0).1 ls ts dn nc subs sels snaps handle run)
        (withStoreActivity (detectorInit cfg w0).2 tok log)).1.reduxTracker.map
        getActiveSubscriptions).getD 0 = 0 ∧
    ((detectorCleanup
        (withRegistries (detectorInit cfg w0).1 ls ts dn nc subs sels snaps handle run)
        (withStoreActivity (detectorInit cfg w0).2 tok log)).1.domTracker.map
        getDetachedNodeCount).getD 0 = 0 ∧
    (detectorCleanup
        (withRegistries (detectorInit cfg w0).1 ls ts dn nc subs sels snaps handle run)
        (withStoreActivity (detectorInit cfg w0).2 tok log)).1.snapshots = [] := by
  refine ⟨cleanup_idem_helper _ _, ?_⟩
  obtain ⟨⟨ga, gr, gst, gsi, gct, gci⟩, store, mo⟩ := w0
  by_cases he : cfg.enableEventListenerTracking
  all_goals by_cases ht : cfg.enableTimerTracking
  all_goals by_cases hd : cfg.enableDOMTracking
  all_goals by_cases hr : cfg.enableReduxTracking
  all_goals cases run
  all_goals cases store
  all_goals simp [he, ht, hd, hr, detectorInit, withRegistries, withStoreActivity,
    newEventListenerTracker, newTimerTracker, newDOMTracker, newReduxTracker, patchStore,
    detectorCleanup, stopDetector, eltCleanup, ttCleanup, domCleanup, reduxCleanup,
    getActiveListeners, getActiveTimers, getActiveSubscriptions, getDetachedNodeCount]

/-! ## C9 / C10: store patching and unsubscription -/

theorem mapSet_fresh {α β : Type} [DecidableEq α] {m : List (α × β)} {k : α}
    (v : β) (h : mapGet m k = none) : mapSet m k v = m ++ [(k, v)] := by
  induction m with
  | nil => rfl
  | cons q rest ih =>
    obtain ⟨k0, v0⟩ := q
    by_cases hk : k0 = k
    · simp [mapGet, hk] at h
    · simp only [mapGet, hk, if_false] at h
      simp [mapSet, hk, ih h]

theorem mapDelete_append_fresh {α β : Type} [DecidableEq α] {m : List (α × β)}
    {k : α} (v : β) (h : mapGet m k = none) : mapDelete (m ++ [(k, v)]) k = m := by
  induction m with
  | nil => simp [mapDelete]
  | cons q rest ih =>
    obtain ⟨k0, v0⟩ := q
    by_cases hk : k0 = k
    · simp [mapGet, hk] at h
    · simp only [mapGet, hk, if_false] at h
      simp [mapDelete, hk, ih h]

/-- C9: `patchStore` twice on the same store leaves exactly one wrapping (the
second call is a no-op), and for a subscription made through the patched
`subscribe` under a fresh generated id, the returned unsubscribe removes
exactly that entry — the registry returns to what it was, entries of other
subscriptions untouched — and then invokes the original store unsubscribe. -/
theorem patchStore_idempotent_unsub (tr : ReduxState) (store : StoreModel) :
    (patchStore (patchStore tr store).1 (patchStore tr store).2 =
      patchStore tr store) ∧
    (tr.storeRef = none →
      (patchStore tr store).2.subscribe = SubscribeRef.wrapped store.subscribe) ∧
    (∀ (listener : Nat) (subId : ℚ) (now : Int) (stack : Option String),
      mapGet tr.storeSubscriptions subId = none →
      (patchedSubscribe tr store listener subId now stack).2.1.storeSubscriptions =
        tr.storeSubscriptions ++
          [(subId, { subscriber := listener, created := now, stack := stack })] ∧
      (invokeWrappedUnsub (patchedSubscribe tr store listener subId now stack).1
          (patchedSubscribe tr store listener subId now stack).2.1
          (patchedSubscribe tr store listener subId now stack).2.2).1.storeSubscriptions =
        tr.storeSubscriptions ∧
      (invokeWrappedUnsub (patchedSubscribe tr store listener subId now stack).1
          (patchedSubscribe tr store listener subId now stack).2.1
          (patchedSubscribe tr store listener subId now stack).2.2).2.log =
        store.log ++ [StoreCall.subscribeCall listener store.nextToken,
                      StoreCall.unsubCall store.nextToken]) := by
  refine ⟨?_, ?_, ?_⟩
  · by_cases h : tr.storeRef.isSome
    · simp [patchStore, h]
    · simp [patchStore, h]
  · intro h
    simp [patchStore, h]
  · intro listener subId now stack hfresh
    refine ⟨?_, ?_, ?_⟩
    · simp [patchedSubscribe, runOriginalSubscribe, mapSet_fresh _ hfresh]
    · simp [invokeWrappedUnsub, patchedSubscribe, runOriginalSubscribe,
        mapSet_fresh _ hfresh, mapDelete_append_fresh _ hfresh]
    · simp [invokeWrappedUnsub, patchedSubscribe, runOriginalSubscribe]

/-- C9 witness: the unsubscribe clause at a concrete tracker, store and id. -/
theorem patchStore_idempotent_unsub_witness :
    (invokeWrappedUnsub
        (patchedSubscribe { storeSubscriptions := [], selectorCalls := [] }
          { id := 0, subscribe := .original 0, nextToken := 0, log := [] } 5 (1/2) 7 none).1
        (patchedSubscribe { storeSubscriptions := [], selectorCalls := [] }
          { id := 0, subscribe := .original 0, nextToken := 0, log := [] } 5 (1/2) 7 none).2.1
        (patchedSubscribe { storeSubscriptions := [], selectorCalls := [] }
          { id := 0, subscribe := .original 0, nextToken := 0, log := [] } 5 (1/2) 7 none).2.2).1.storeSubscriptions =
      ([] : List (ℚ × SubInfo)) :=
  ((patchStore_idempotent_unsub { storeSubscriptions := [], selectorCalls := [] }
      { id := 0, subscribe := .original 0, nextToken := 0, log := [] }).2.2
    5 (1/2) 7 none rfl).2.1

/-- C10: once `storeRef` is set — by an explicit `patchStore` or by
constructor auto-discovery — every later `patchStore` call is a no-op even
on a different, never-patched store: the tracker and the other store are
both returned unchanged, so at most one store is ever wrapped and no
subscription on another store is ever recorded. -/
theorem patchStore_at_most_one_store :
    (∀ (tr : ReduxState) (other : StoreModel), tr.storeRef.isSome →
      patchStore tr other = (tr, other)) ∧
    (∀ (tr : ReduxState) (s : StoreModel), tr.storeRef = none →
      (patchStore tr s).1.storeRef = some s.id) ∧
    (∀ (s0 other : StoreModel),
      (newReduxTracker (some s0)).1.storeRef = some s0.id ∧
      patchStore (newReduxTracker (some s0)).1 other =
        ((newReduxTracker (some s0)).1, other)) := by
  refine ⟨?_, ?_, ?_⟩
  · intro tr other h
    simp [patchStore, h]
  · intro tr s h
    simp [patchStore, h]
  · intro s0 other
    constructor
    · simp [newReduxTracker, patchStore]
    · simp [newReduxTracker, patchStore]

/-- C10 witness: a tracker that already holds a store reference ignores a
fresh store object. -/
theorem patchStore_at_most_one_store_witness :
    patchStore
        { storeSubscriptions := [], selectorCalls := [],
          originalStoreSubscribe := some (.original 0), storeRef := some 3 }
        { id := 4, subscribe := .original 1, nextToken := 0, log := [] } =
      ({ storeSubscriptions := [], selectorCalls := [],
         originalStoreSubscribe := some (.original 0), storeRef := some 3 },
       { id := 4, subscribe := .original 1, nextToken := 0, log := [] }) :=
  patchStore_at_most_one_store.1 _ _ rfl

/-! ## C7: recommendation generation -/

theorem mem_jsSetDedupGo (l : List String) :
    ∀ (seen : List String) (y : String),
      y ∈ jsSetDedupGo seen l ↔ y ∈ l ∧ y ∉ seen := by
  induction l with
  | nil => intro seen y; simp [jsSetDedupGo]
  | cons x xs ih =>
    intro seen y
    unfold jsSetDedupGo
    by_cases hx : x ∈ seen
    · rw [if_pos hx, ih]
      constructor
      · rintro ⟨h1, h2⟩
        exact ⟨List.mem_cons_of_mem _ h1, h2⟩
      · rintro ⟨h1, h2⟩
        rcases List.mem_cons.mp h1 with h1 | h1
        · exact absurd (h1 ▸ hx) h2
        · exact ⟨h1, h2⟩
    · rw [if_neg hx]
      simp only [List.mem_cons, ih]
      constructor
      · rintro (rfl | ⟨h1, h2⟩)
        · exact ⟨Or.inl rfl, hx⟩
        · exact ⟨Or.inr h1, fun hc => h2 (Or.inr hc)⟩
      · rintro ⟨rfl | h1, h2⟩
        · exact Or.inl rfl
        · by_cases hyx : y = x
          · exact Or.inl hyx
          · exact Or.inr ⟨h1, fun hc => hc.elim hyx h2⟩

theorem nodup_jsSetDedupGo (l : List String) :
    ∀ seen : List String, (jsSetDedupGo seen l).Nodup := by
  induction l with
  | nil => intro seen; simp [jsSetDedupGo]
  | cons x xs ih =>
    intro seen
    unfold jsSetDedupGo
    by_cases hx : x ∈ seen
    · rw [if_pos hx]; exact ih seen
    · rw [if_neg hx]
      refine List.nodup_cons.mpr ⟨?_, ih (x :: seen)⟩
      intro hmem
      exact ((mem_jsSetDedupGo xs (x :: seen) x).mp hmem).2 (List.mem_cons_self x seen)

theorem recsFold_eq_map (s : List LeakSuspect) :
    ∀ acc : List String,
      s.foldl (fun recs sus => recs ++ [recommendationFor sus.type]) acc =
        acc ++ s.map (fun sus => recommendationFor sus.type) := by
  induction s with
  | nil => intro acc; simp
  | cons sus rest ih =>
    intro acc
    simp only [List.foldl_cons, List.map_cons]
    rw [ih]
    simp

/-- Membership in the generated recommendations is exactly "some suspect's
category maps to this advice string". -/
theorem mem_generateRecommendations (s : List LeakSuspect) (r : String) :
    r ∈ generateRecommendations s ↔
      ∃ c ∈ s.map LeakSuspect.type, recommendationFor c = r := by
  unfold generateRecommendations jsSetDedup
  rw [recsFold_eq_map, List.nil_append, mem_jsSetDedupGo]
  simp

/-- A timer suspect and a listener suspect (only categories matter here). -/
def susTimer : LeakSuspect :=
  { type := .timer, severity := .high, description := "t" }

/-- A listener-category suspect used alongside `susTimer`. -/
def susListener : LeakSuspect :=
  { type := .eventListener, severity := .high, description := "l" }

/-- C7 counterexample: two suspect lists with the same *set* of category
tags but opposite order produce different recommendation *lists* — the
dedup keeps first-occurrence order, so the output is not a function of the
category set alone. -/
theorem recommendations_order_counterexample :
    ([susTimer, susListener].map LeakSuspect.type).Perm
      ([susListener, susTimer].map LeakSuspect.type) ∧
    generateRecommendations [susTimer, susListener] ≠
      generateRecommendations [susListener, susTimer] := by
  constructor
  · decide
  · decide

/-- C7 (amended): the recommendations list never contains duplicates, is
invariant under multiplicity, severity and description changes, and its
*set* of entries (not its order) is a function of the set of suspect
categories present: equal category sets give recommendation lists with the
same members. -/
theorem recommendations_dedup_and_category_function :
    (∀ s : List LeakSuspect, (generateRecommendations s).Nodup) ∧
    (∀ s1 s2 : List LeakSuspect,
      (∀ c : SuspectType,
        c ∈ s1.map LeakSuspect.type ↔ c ∈ s2.map LeakSuspect.type) →
      ∀ r : String,
        r ∈ generateRecommendations s1 ↔ r ∈ generateRecommendations s2) := by
  constructor
  · intro s
    unfold generateRecommendations jsSetDedup
    exact nodup_jsSetDedupGo _ []
  · intro s1 s2 hcat r
    rw [mem_generateRecommendations, mem_generateRecommendations]
    constructor
    · rintro ⟨c, hc, hr⟩
      exact ⟨c, (hcat c).mp hc, hr⟩
    · rintro ⟨c, hc, hr⟩
      exact ⟨c, (hcat c).mpr hc, hr⟩

/-- C7 witness: the category-set clause applied to the two concrete
reordered suspect lists. -/
theorem recommendations_dedup_witness :
    "Clear intervals and timeouts when they are no longer needed" ∈
      generateRecommendations [susListener, susTimer] :=
  (recommendations_dedup_and_category_function.2
      [susTimer, susListener] [susListener, susTimer]
      (by intro c; simp [susTimer, susListener]; tauto)
      "Clear intervals and timeouts when they are no longer needed").mp
    (by decide)

/-! ## C6: the report cycle -/

/-- C6: one `generateReport()` call produces its suspect list as the
concatenation of the enabled trackers' suspects in the fixed order
listener, timer, structural (DOM), store (Redux), then the growth rule
evaluated on the post-snapshot history; the callback events are exactly one
`onLeak` per suspect, in list order, followed by exactly one `onReport`
with the full report. -/
theorem generateReport_structure (env : Env) (st : DetectorState) :
    (generateReport env st).report.leakSuspects =
      (match st.eventTracker with
       | some tr => listenerDetectLeaks env.ctorName tr.listeners
       | none => []) ++
      (match st.timerTracker with
       | some tr => timerDetectLeaks env.now tr.timers
       | none => []) ++
      (match st.domTracker with
       | some d => domDetectLeaks env.domNodeCount d
       | none => []) ++
      (match st.reduxTracker with
       | some r => reduxDetectLeaks env.now r
       | none => []) ++
      growthSuspects st.config.reportInterval
        (pushSnapshot st.snapshots (takeSnapshot env st).1) ∧
    (generateReport env st).events =
      (generateReport env st).report.leakSuspects.map CallbackEvent.leak ++
        [CallbackEvent.report (generateReport env st).report] ∧
    (generateReport env st).report.recommendations =
      generateRecommendations (generateReport env st).report.leakSuspects ∧
    ((generateReport env st).events.filter
      (fun e => match e with | .report _ => true | .leak _ => false)).length = 1 := by
  refine ⟨rfl, rfl, rfl, ?_⟩
  have key : ∀ (l : List LeakSuspect) (r : MemoryLeakReport),
      ((l.map CallbackEvent.leak ++ [CallbackEvent.report r]).filter
        (fun e => match e with | .report _ => true | .leak _ => false)).length = 1 := by
    intro l r
    induction l with
    | nil => rfl
    | cons x xs ih => simp [ih]
  exact key (generateReport env st).report.leakSuspects (generateReport env st).report

end MLD

